import Mathlib

/-!
Verification of the volplugin host-side volume agent against its
specification.  The embedding follows volplugin/volplugin.go and
storage/driver.go: the startup loop of Daemon, the router built by
configureRouter, getGlobal and watchGlobal, and the startup reconciler
updateMounts are translated as executable Lean functions over explicit
oracles for the master, the drivers and the operating system, producing
event traces that record every externally visible step in source order.
-/

namespace Volplugin

/-- Global configuration polled from the master (config.Global); only the
fields the agent reads are embedded: Debug, MountPath, TTL and Timeout. -/
structure Global where
  debug : Bool
  mountPath : String
  ttl : Nat
  timeout : Nat
deriving DecidableEq, Repr

namespace Storage

/-- Volume from storage/driver.go: the name, size and opaque parameters. -/
structure Volume where
  name : String
  size : Nat
  params : List (String × String)
deriving DecidableEq, Repr

/-- Mount from storage/driver.go: the attributes of a kernel mount owned by
the agent. -/
structure Mount where
  device : String
  path : String
  devMajor : Nat
  devMinor : Nat
  volume : Volume
deriving DecidableEq, Repr

end Storage

/-- Operations of the storage driver contract (storage/driver.go): the
MountDriver and CRUDDriver capability groups, as named operations. -/
inductive DriverOp where
  | createOp
  | formatOp
  | destroyOp
  | listOp
  | existsOp
  | mountOp
  | unmountOp
  | mountedOp
  | mountPathOp
deriving DecidableEq, Repr

/-- Go strings.Split with the one-character separator "/", exactly as
updateMounts applies it to a volume name: an empty input yields one empty
part, and every separator occurrence starts a new part. -/
def splitSlash : List Char → List (List Char)
  | [] => [[]]
  | c :: rest =>
    if c = '/' then [] :: splitSlash rest
    else
      match splitSlash rest with
      | [] => [[c]]
      | p :: ps => (c :: p) :: ps

/-- The volume-name check performed by updateMounts: strings.Split on "/"
must yield exactly two parts (len(parts) == 2). -/
def acceptVolumeName (s : String) : Bool :=
  (splitSlash s.data).length == 2

/-- The claimed name grammar, following the spec words: policy "/" name with
both segments non-empty and slash-free.  Stated over the character list of
the name so it can be compared with the check the source performs. -/
def ClaimedNameShape (s : String) : Prop :=
  ∃ p n : List Char, s.data = p ++ '/' :: n ∧ p ≠ [] ∧ n ≠ [] ∧ '/' ∉ p ∧ '/' ∉ n

/-- Per-host agent bookkeeping from DaemonConfig: the mount refcount map
(mountCount), the registered stop channels, and which background heartbeat
and runtime-poller tasks are running.  NewDaemonConfig starts all empty. -/
structure AgentState where
  mountCount : List (String × Nat)
  stopChans : List String
  heartbeats : List String
  pollers : List String
deriving DecidableEq, Repr

/-- Reading a Go map of ints yields the zero value for a missing key. -/
def countOf (st : AgentState) (v : String) : Nat :=
  (st.mountCount.lookup v).getD 0

/-- The state NewDaemonConfig constructs: every map empty, no tasks. -/
def newDaemonState : AgentState :=
  { mountCount := [], stopChans := [], heartbeats := [], pollers := [] }

/-- UseMount payload (config.UseMount) built by the reconciler: the volume,
the reason and the holder hostname. -/
structure UseMount where
  volume : String
  reason : String
  hostname : String
deriving DecidableEq, Repr

/-- Modelled from the spec: lock.ReasonMount, the reason recorded on a mount
lease (the constant lives in the lock package, outside src). -/
def reasonMount : String := "mount"

/-- Modelled from the spec: lock.Unlocked, the reserved placeholder holder
naming no host, used for unlocked volumes (outside src). -/
def lockUnlocked : String := "unlocked"

/-- Modelled from the spec: the outcomes of requestVolume against the master
(GetVolume): the distinguished VolumeNotFound and MasterUnreachable errors,
or the volume itself carrying its Unlocked flag. -/
inductive VolLookup where
  | notFound
  | unreachable
  | found (unlocked : Bool)
deriving DecidableEq, Repr

/-- Oracle for the master's side of reconciliation: the volume lookup result
for each (policy, name), and whether each ReportMount and ReportMountStatus
call succeeds. -/
structure MasterOracle where
  lookup : String → String → VolLookup
  reportMountOk : UseMount → Bool
  reportMountStatusOk : UseMount → Bool

/-- Externally visible steps of the agent, in source order: reconciliation
steps from updateMounts, and the startup steps of Daemon. -/
inductive Event where
  | newMountDriver (driver : String)
  | mountedScan (driver : String)
  | warnInvalidName (name : String)
  | refreshMount (name : String)
  | lookupVolume (policy name : String)
  | warnNotFound (name : String)
  | fatalUnreachable
  | reportMount (payload : UseMount)
  | reportMountStatus (payload : UseMount)
  | startPoller (volume : String)
  | addStopChan (volume : String)
  | startHeartbeat (volume : String)
  | driverMount (volume : String)
  | fetchGlobal
  | logGlobalMissing
  | sleepSecond
  | globalObtained
  | runReconcile
  | spawnDebugHandler
  | spawnGlobalWatcher
  | removeSocketFile
  | mkdirPlugins (mode : Nat)
  | bindSocket
  | serveRPC
  | closeListener
  | removeSocketOnShutdown
  | fatalServe
  | returnError
deriving DecidableEq, Repr

/-- Outcome of processing one scanned mount inside updateMounts: continue
with a possibly updated state, abort the process (log.Fatalf), or return an
error from updateMounts. -/
inductive MountStep where
  | next (st : AgentState) (tr : List Event)
  | fatal (tr : List Event)
  | failStep (tr : List Event)
deriving DecidableEq, Repr

/-- The body of the per-mount loop of updateMounts, line for line: parse the
volume name with strings.Split (skip with a warning unless exactly two
parts), look the volume up on the master (VolumeNotFound warns and skips,
MasterUnreachable is log.Fatalf), build the UseMount payload honouring the
Unlocked flag, publish it via ReportMount with ReportMountStatus as
fallback (both failing returns the error), then start the runtime poller,
register a stop channel via AddStopChan and start the heartbeat.  The
refcount map is not touched.  Client.AddStopChan, HeartbeatMount and
startRuntimePoll are outside src; their effects (register a stop channel,
run a heartbeat, run a poller) are modelled from the spec. -/
def processMount (host : String) (o : MasterOracle) (st : AgentState)
    (m : Storage.Mount) : MountStep :=
  match splitSlash m.volume.name.data with
  | [p, n] =>
    let policy : String := ⟨p⟩
    let name : String := ⟨n⟩
    let tr0 : List Event := [.refreshMount m.volume.name, .lookupVolume policy name]
    match o.lookup policy name with
    | .notFound => .next st (tr0 ++ [.warnNotFound m.volume.name])
    | .unreachable => .fatal (tr0 ++ [.fatalUnreachable])
    | .found unlocked =>
      let payload : UseMount :=
        { volume := m.volume.name, reason := reasonMount,
          hostname := if unlocked then lockUnlocked else host }
      let st1 : AgentState :=
        { st with
            stopChans := st.stopChans ++ [m.volume.name],
            heartbeats := st.heartbeats ++ [m.volume.name],
            pollers := st.pollers ++ [m.volume.name] }
      let trStart : List Event :=
        [.startPoller m.volume.name, .addStopChan m.volume.name,
         .startHeartbeat m.volume.name]
      if o.reportMountOk payload then
        .next st1 (tr0 ++ [.reportMount payload] ++ trStart)
      else if o.reportMountStatusOk payload then
        .next st1 (tr0 ++ [.reportMount payload, .reportMountStatus payload] ++ trStart)
      else
        .failStep (tr0 ++ [.reportMount payload, .reportMountStatus payload])
  | _ => .next st [.warnInvalidName m.volume.name]

/-- Outcome of updateMounts: normal return with the final state, an error
return, or a fatal process abort. -/
inductive UMResult where
  | ok (st : AgentState) (tr : List Event)
  | errAbort (st : AgentState) (tr : List Event)
  | fatalAbort (tr : List Event)
deriving DecidableEq, Repr

/-- The state updateMounts left behind, when it returned at all. -/
def umState : UMResult → Option AgentState
  | .ok st _ => some st
  | .errAbort st _ => some st
  | .fatalAbort _ => none

/-- The event trace of an updateMounts outcome. -/
def umTrace : UMResult → List Event
  | .ok _ tr => tr
  | .errAbort _ tr => tr
  | .fatalAbort tr => tr

/-- Prefixing a trace onto an updateMounts outcome. -/
def prependTrace (tr : List Event) : UMResult → UMResult
  | .ok st tr2 => .ok st (tr ++ tr2)
  | .errAbort st tr2 => .errAbort st (tr ++ tr2)
  | .fatalAbort tr2 => .fatalAbort (tr ++ tr2)

/-- The inner loop of updateMounts over the mounts one driver reported. -/
def processMounts (host : String) (o : MasterOracle) (st : AgentState) :
    List Storage.Mount → UMResult
  | [] => .ok st []
  | m :: rest =>
    match processMount host o st m with
    | .next st1 tr => prependTrace tr (processMounts host o st1 rest)
    | .fatal tr => .fatalAbort tr
    | .failStep tr => .errAbort st tr

/-- What one registered mount driver yields during reconciliation:
NewMountDriver may fail, Mounted may fail, or Mounted lists the surviving
kernel mounts.  The backend registry itself is outside src; the list of
entries stands for any registry content and iteration order. -/
inductive DriverScan where
  | ctorErr (msg : String)
  | mountedErr (msg : String)
  | mounts (ms : List Storage.Mount)
deriving DecidableEq, Repr

/-- A registered mount driver by name together with its scan outcome. -/
structure DriverEntry where
  name : String
  scan : DriverScan
deriving DecidableEq, Repr

/-- updateMounts from volplugin.go: for every registered mount driver,
construct it (errors return), enumerate its surviving mounts via Mounted
(errors return), and process each mount with processMount.  A fatal step
aborts everything; a failed step returns its error. -/
def updateMounts (host : String) (o : MasterOracle) (st : AgentState) :
    List DriverEntry → UMResult
  | [] => .ok st []
  | d :: rest =>
    match d.scan with
    | .ctorErr _ => .errAbort st [.newMountDriver d.name]
    | .mountedErr _ => .errAbort st [.newMountDriver d.name, .mountedScan d.name]
    | .mounts ms =>
      let base : List Event := [.newMountDriver d.name, .mountedScan d.name]
      match processMounts host o st ms with
      | .ok st1 tr =>
        prependTrace (base ++ tr) (updateMounts host o st1 rest)
      | .errAbort st1 tr => .errAbort st1 (base ++ tr)
      | .fatalAbort tr => .fatalAbort (base ++ tr)

/-- Outcome of one getGlobal attempt: the HTTP GET may error, reading the
response body may error, JSON decoding may error, or a Global is decoded. -/
inductive GetOutcome where
  | httpErr (msg : String)
  | bodyReadErr (msg : String)
  | jsonErr (msg : String)
  | success (g : Global)
deriving DecidableEq, Repr

/-- getGlobal from volplugin.go: on any of the three failures it logs and
returns, leaving dc.Global exactly as it was; only on success it assigns
the freshly decoded configuration. -/
def getGlobal (g : Option Global) : GetOutcome → Option Global
  | .httpErr _ => g
  | .bodyReadErr _ => g
  | .jsonErr _ => g
  | .success ng => some ng

/-- watchGlobal from volplugin.go: an endless poll loop calling getGlobal
once per second; a finite prefix of the loop is the fold of getGlobal over
the successive outcomes. -/
def watchGlobal (g : Option Global) (os : List GetOutcome) : Option Global :=
  os.foldl getGlobal g

/-- The request handlers of configureRouter, by name. -/
inductive Handler where
  | activate
  | nilAction
  | create
  | getPath
  | list
  | get
  | mount
  | unmount
  | action
  | notFound
deriving DecidableEq, Repr

/-- The routeMap of configureRouter: the nine registered verbs and their
handlers.  /VolumeDriver.Remove is wired to getPath, never to a destroy
path ("we never actually remove through docker's interface"). -/
def routeMap : List (String × Handler) :=
  [("/Plugin.Activate", .activate),
   ("/Plugin.Deactivate", .nilAction),
   ("/VolumeDriver.Create", .create),
   ("/VolumeDriver.Remove", .getPath),
   ("/VolumeDriver.List", .list),
   ("/VolumeDriver.Get", .get),
   ("/VolumeDriver.Path", .getPath),
   ("/VolumeDriver.Mount", .mount),
   ("/VolumeDriver.Unmount", .unmount)]

/-- Request dispatch of the router configureRouter builds: the nine
registered verbs reach their handlers; any other path reaches the
diagnostic action handler exactly when the debug catch-all route was
installed (dc.Global.Debug), and is unrouted otherwise. -/
def resolveRoute (debug : Bool) (p : String) : Handler :=
  match routeMap.lookup p with
  | some h => h
  | none => if debug then .action else .notFound

/-- Modelled from the spec: the storage-driver operations each RPC handler
may invoke (the verb table and protocols of the spec; the handler bodies
are outside src).  Remove is wired to getPath, which only computes the
mountpoint path; no handler invokes Destroy. -/
def handlerDriverOps : Handler → List DriverOp
  | .activate => []
  | .nilAction => []
  | .create => [.createOp, .formatOp]
  | .getPath => [.mountPathOp]
  | .list => []
  | .get => [.mountPathOp]
  | .mount => [.mountPathOp, .mountOp]
  | .unmount => [.unmountOp]
  | .action => []
  | .notFound => []

/-- Outcome of the os.Remove of a stale socket file: removed, already
absent (IsNotExist, tolerated), or a genuine error (returned). -/
inductive RemoveResult where
  | removed
  | notExist
  | removeErr
deriving DecidableEq, Repr

/-- Everything the environment decides during one Daemon run: the outcomes
of the successive getGlobal attempts of the startup loop, the driver scans
and master answers for updateMounts, and the results of the socket-file
removal, directory creation, listen and Serve calls. -/
structure DaemonInput where
  fetches : List (Option Global)
  drivers : List DriverEntry
  master : MasterOracle
  removeSock : RemoveResult
  mkdirOk : Bool
  listenOk : Bool
  serveErr : Option String

/-- The startup loop of Daemon: call getGlobal, break once dc.Global is
non-nil, otherwise log that the global configuration is missing and sleep
one second.  Returns the loop trace and the configuration obtained; an
exhausted outcome list means the daemon is still waiting (and nothing
after the loop ever ran). -/
def daemonLoop : List (Option Global) → List Event × Option Global
  | [] => ([], none)
  | none :: rest =>
    (.fetchGlobal :: .logGlobalMissing :: .sleepSecond :: (daemonLoop rest).1,
     (daemonLoop rest).2)
  | some g :: _ => ([.fetchGlobal], some g)

/-- The steps of Daemon after a successful reconciliation: spawn the debug
signal handler and the global watcher, remove any stale socket file
(IsNotExist tolerated, other errors returned), create the plugin directory
with mode 0700, bind the Unix socket and serve.  Serve returning an error
is log.Fatalf: the process exits without closing the listener or removing
the socket file; only a nil Serve return reaches the cleanup lines. -/
def afterReconcile (rm : RemoveResult) (mkdirOk listenOk : Bool)
    (serveErr : Option String) : List Event :=
  [.spawnDebugHandler, .spawnGlobalWatcher, .removeSocketFile] ++
  match rm with
  | .removeErr => [.returnError]
  | _ =>
    [.mkdirPlugins 0o700] ++
    if mkdirOk then
      if listenOk then
        [.bindSocket, .serveRPC] ++
        match serveErr with
        | some _ => [.fatalServe]
        | none => [.closeListener, .removeSocketOnShutdown]
      else [.returnError]
    else [.returnError]

/-- The part of Daemon that runs once the startup loop obtained a global
configuration: run updateMounts (an error returns, a fatal outcome aborts
the process), then continue with afterReconcile. -/
def daemonTail (host : String) (inp : DaemonInput) (st : AgentState) :
    List Event :=
  [.globalObtained, .runReconcile] ++
  match updateMounts host inp.master st inp.drivers with
  | .errAbort _ tr => tr ++ [.returnError]
  | .fatalAbort tr => tr
  | .ok _ tr =>
    tr ++ afterReconcile inp.removeSock inp.mkdirOk inp.listenOk inp.serveErr

/-- Daemon from volplugin.go as an event trace: loop until a global
configuration is obtained, then reconcile and serve. -/
def Daemon (host : String) (inp : DaemonInput) (st : AgentState) :
    List Event :=
  match daemonLoop inp.fetches with
  | (tr, none) => tr
  | (tr, some _) => tr ++ daemonTail host inp st

/-- The events strictly before the first occurrence of an event in a trace. -/
def eventsBefore (e : Event) (tr : List Event) : List Event :=
  tr.takeWhile (fun x => x != e)

/-- Events the startup loop can emit. -/
def isLoopEvent : Event → Bool
  | .fetchGlobal => true
  | .logGlobalMissing => true
  | .sleepSecond => true
  | _ => false

/-- Events reconciliation can emit. -/
def isReconcileEvent : Event → Bool
  | .newMountDriver _ => true
  | .mountedScan _ => true
  | .warnInvalidName _ => true
  | .refreshMount _ => true
  | .lookupVolume _ _ => true
  | .warnNotFound _ => true
  | .fatalUnreachable => true
  | .reportMount _ => true
  | .reportMountStatus _ => true
  | .startPoller _ => true
  | .addStopChan _ => true
  | .startHeartbeat _ => true
  | _ => false

/-- Recognizes a driver Mount invocation in a trace. -/
def isDriverMountEvent : Event → Bool
  | .driverMount _ => true
  | _ => false

/-- Whether a trace contains a driver Mount invocation. -/
def hasDriverMount (tr : List Event) : Bool :=
  tr.any isDriverMountEvent

/-- The trace carried by a per-mount step outcome. -/
def stepTrace : MountStep → List Event
  | .next _ tr => tr
  | .fatal tr => tr
  | .failStep tr => tr

/-- The quiescent-state invariant the spec claims: a volume's refcount is
zero exactly when no heartbeat runs for it, and exactly when no stop
channel is registered for it. -/
def QuiescentInvariant (st : AgentState) : Prop :=
  ∀ v : String,
    (countOf st v = 0 ↔ st.heartbeats.contains v = false) ∧
    (countOf st v = 0 ↔ st.stopChans.contains v = false)

/-- The concrete volume name used in the concrete scenarios. -/
def volNameCE : String := "policy1/test"

/-- The concrete hostname used in the concrete scenarios. -/
def hostCE : String := "mon0"

/-- A concrete global configuration. -/
def globalCE : Global :=
  { debug := false, mountPath := "/mnt/ceph", ttl := 5, timeout := 10 }

/-- A concrete surviving kernel mount for policy1/test. -/
def mountCE : Storage.Mount :=
  { device := "/dev/rbd0", path := "/mnt/ceph/rbd/policy1.test",
    devMajor := 252, devMinor := 0,
    volume := { name := volNameCE, size := 0, params := [] } }

/-- A master that knows every volume (locked) and accepts every report. -/
def oracleCE : MasterOracle :=
  { lookup := fun _ _ => .found false,
    reportMountOk := fun _ => true,
    reportMountStatusOk := fun _ => true }

/-- A master that answers VolumeNotFound to every lookup. -/
def oracleNotFoundCE : MasterOracle :=
  { oracleCE with lookup := fun _ _ => .notFound }

/-- A master that is unreachable on every lookup. -/
def oracleUnreachableCE : MasterOracle :=
  { oracleCE with lookup := fun _ _ => .unreachable }

/-- A single registered driver whose scan finds the one surviving mount. -/
def driversCE : List DriverEntry :=
  [{ name := "ceph", scan := .mounts [mountCE] }]

/-- The agent state the reconciler leaves behind on the single surviving
known mount policy1/test with the lease report accepted. -/
def reconciledStateCE : AgentState :=
  { mountCount := [], stopChans := [volNameCE],
    heartbeats := [volNameCE], pollers := [volNameCE] }

/-- C1: on the pre-existing kernel mount for policy1/test, a volume the
master knows, the reconciler registers a stop channel and starts a
heartbeat and a runtime poller for it, yet leaves its refcount at 0: the
updateMounts of the source never seeds mountCount, so the refcount does not
equal 1 as the claim states. -/
theorem updateMounts_refcount_not_seeded :
    umState (updateMounts hostCE oracleCE newDaemonState driversCE) =
      some reconciledStateCE ∧
    countOf reconciledStateCE volNameCE = 0 ∧
    reconciledStateCE.stopChans.contains volNameCE = true ∧
    reconciledStateCE.heartbeats.contains volNameCE = true ∧
    reconciledStateCE.pollers.contains volNameCE = true := by
  refine ⟨?_, ?_, ?_, ?_, ?_⟩ <;> decide

/-- C2: the quiescent state the reconciler reaches on a surviving known
mount violates the claimed invariant: policy1/test has refcount 0 yet a
running heartbeat and a registered stop channel. -/
theorem reconciler_breaks_quiescent_invariant :
    umState (updateMounts hostCE oracleCE newDaemonState driversCE) =
      some reconciledStateCE ∧
    ¬ QuiescentInvariant reconciledStateCE := by
  refine ⟨by decide, ?_⟩
  intro h
  have h1 := (h volNameCE).1
  have hc : countOf reconciledStateCE volNameCE = 0 := by decide
  have hb := h1.mp hc
  have ht : reconciledStateCE.heartbeats.contains volNameCE = true := by decide
  rw [ht] at hb
  exact Bool.noConfusion hb

/-- Any handler the routeMap can yield is a registered one, never the
diagnostic action handler. -/
theorem lookup_routeMap_handlers (p : String) (h : Handler)
    (hl : routeMap.lookup p = some h) : h ≠ Handler.action := by
  simp only [routeMap, List.lookup] at hl
  repeat' split at hl
  all_goals cases hl
  all_goals decide

/-- C5: with the global debug flag off, no request path is dispatched to the
diagnostic action handler: it is reachable only when debug is enabled,
because the catch-all route is installed only under dc.Global.Debug. -/
theorem debug_off_never_routes_action :
    ∀ p : String, resolveRoute false p ≠ Handler.action := by
  intro p
  unfold resolveRoute
  cases hl : routeMap.lookup p with
  | none => simp
  | some h => exact lookup_routeMap_handlers p h hl

/-- C6: the Remove verb is wired to the getPath handler, which only computes
the mountpoint path, and no handler reachable from the plugin RPC surface,
debug on or off, performs the driver Destroy operation. -/
theorem remove_rpc_never_destroys :
    resolveRoute false ("/VolumeDriver.Remove") = Handler.getPath ∧
    resolveRoute true ("/VolumeDriver.Remove") = Handler.getPath ∧
    handlerDriverOps Handler.getPath = [DriverOp.mountPathOp] ∧
    ∀ (debug : Bool) (p : String),
      DriverOp.destroyOp ∉ handlerDriverOps (resolveRoute debug p) := by
  refine ⟨by decide, by decide, rfl, ?_⟩
  intro debug p
  cases hr : resolveRoute debug p <;> decide

/-- C10: a failed global-configuration fetch of any of the three kinds
(HTTP error, body-read error, JSON-decode error) leaves the stored
configuration unchanged, a successful fetch stores the decoded value, and a
configuration once obtained never reverts to none under any further
sequence of polling outcomes. -/
theorem getGlobal_failure_preserves_config :
    ∀ (g : Option Global) (msg : String) (ng : Global) (os : List GetOutcome),
      getGlobal g (.httpErr msg) = g ∧
      getGlobal g (.bodyReadErr msg) = g ∧
      getGlobal g (.jsonErr msg) = g ∧
      getGlobal g (.success ng) = some ng ∧
      watchGlobal (some ng) os ≠ none := by
  intro g msg ng os
  refine ⟨rfl, rfl, rfl, rfl, ?_⟩
  induction os generalizing ng with
  | nil => simp [watchGlobal]
  | cons o rest ih =>
    cases o with
    | httpErr m => simpa [watchGlobal, getGlobal] using ih ng
    | bodyReadErr m => simpa [watchGlobal, getGlobal] using ih ng
    | jsonErr m => simpa [watchGlobal, getGlobal] using ih ng
    | success g2 => simpa [watchGlobal, getGlobal] using ih g2

/-- splitSlash never yields an empty list of parts. -/
theorem splitSlash_ne_nil (l : List Char) : splitSlash l ≠ [] := by
  induction l with
  | nil => simp [splitSlash]
  | cons c rest ih =>
    simp only [splitSlash]
    split
    · simp
    · cases hs : splitSlash rest <;> simp

/-- splitSlash yields one part more than the number of separators. -/
theorem length_splitSlash (l : List Char) :
    (splitSlash l).length = l.count '/' + 1 := by
  induction l with
  | nil => simp [splitSlash]
  | cons c rest ih =>
    by_cases hc : c = '/'
    · subst hc
      simp [splitSlash, List.count_cons, ih]
    · simp only [splitSlash, if_neg hc]
      cases hs : splitSlash rest with
      | nil => exact absurd hs (splitSlash_ne_nil rest)
      | cons p ps =>
        have h2 : (p :: ps).length = rest.count '/' + 1 := hs ▸ ih
        have h3 : (c :: rest).count '/' = rest.count '/' := by
          simp [List.count_cons, hc]
        simp only [List.length_cons] at h2 ⊢
        omega

/-- C7 counterexample: the name consisting of one slash splits into exactly
two (empty) parts, so the check of updateMounts accepts it, while the
claimed grammar, requiring both segments non-empty, rejects it. -/
theorem slash_only_name_accepted :
    acceptVolumeName ("/") = true ∧ ¬ ClaimedNameShape ("/") := by
  constructor
  · decide
  · rintro ⟨p, n, hd, hp, hn, hsp, hsn⟩
    have hdata : ("/" : String).data = ['/'] := rfl
    rw [hdata] at hd
    have hlen := congrArg List.length hd
    simp only [List.length_cons, List.length_append, List.length_nil] at hlen
    have hp0 : p.length = 0 := by omega
    exact hp (List.length_eq_zero.mp hp0)

/-- C7 amended: the agent accepts exactly the volume names containing
exactly one slash character, empty segments included; every other shape is
skipped by the reconciler with a warning, with no master lookup, lease
report, task start or state change. -/
theorem acceptVolumeName_exactly_one_slash :
    (∀ s : String, acceptVolumeName s = true ↔ s.data.count '/' = 1) ∧
    (∀ (host : String) (o : MasterOracle) (st : AgentState) (m : Storage.Mount),
      acceptVolumeName m.volume.name = false →
      processMount host o st m = .next st [.warnInvalidName m.volume.name]) := by
  constructor
  · intro s
    simp only [acceptVolumeName, beq_iff_eq, length_splitSlash]
    omega
  · intro host o st m hacc
    have hlen : ¬ (splitSlash m.volume.name.data).length = 2 := by
      simpa [acceptVolumeName] using hacc
    unfold processMount
    cases hs : splitSlash m.volume.name.data with
    | nil => rfl
    | cons a t =>
      cases t with
      | nil => rfl
      | cons b t2 =>
        cases t2 with
        | nil => exact absurd (by rw [hs]; rfl) hlen
        | cons c t3 => rfl

/-- A mount whose volume name has no slash at all. -/
def badMountCE : Storage.Mount :=
  { mountCE with volume := { name := "noslash", size := 0, params := [] } }

/-- Witness for the amended name-grammar theorem at the no-slash name. -/
theorem acceptVolumeName_exactly_one_slash_witness :
    acceptVolumeName ("noslash") = false ∧
    processMount hostCE oracleCE newDaemonState badMountCE =
      .next newDaemonState [.warnInvalidName ("noslash")] := by
  refine ⟨by decide, ?_⟩
  exact acceptVolumeName_exactly_one_slash.2 hostCE oracleCE newDaemonState
    badMountCE (by decide)

/-- C3: for a surviving mount whose name parses as policy/name, a
VolumeNotFound answer from the master makes the reconciler warn and skip
that mount, leaving the state unchanged and continuing with the remaining
mounts, while a MasterUnreachable answer aborts reconciliation fatally, so
the agent never starts serving. -/
theorem reconcile_master_error_handling :
    ∀ (host : String) (o : MasterOracle) (st : AgentState)
      (m : Storage.Mount) (rest : List Storage.Mount) (policy name : String),
      splitSlash m.volume.name.data = [policy.data, name.data] →
      (o.lookup policy name = .notFound →
        processMounts host o st (m :: rest) =
          prependTrace
            [.refreshMount m.volume.name, .lookupVolume policy name,
             .warnNotFound m.volume.name]
            (processMounts host o st rest)) ∧
      (o.lookup policy name = .unreachable →
        processMounts host o st (m :: rest) =
          .fatalAbort
            [.refreshMount m.volume.name, .lookupVolume policy name,
             .fatalUnreachable]) := by
  intro host o st m rest policy name hsplit
  constructor
  · intro hl
    have hpm : processMount host o st m =
        .next st [.refreshMount m.volume.name, .lookupVolume policy name,
                  .warnNotFound m.volume.name] := by
      unfold processMount
      rw [hsplit]
      dsimp only
      rw [hl]
      rfl
    have hstep : processMounts host o st (m :: rest) =
        match processMount host o st m with
        | .next st1 tr => prependTrace tr (processMounts host o st1 rest)
        | .fatal tr => .fatalAbort tr
        | .failStep tr => .errAbort st tr := rfl
    rw [hstep, hpm]
  · intro hl
    have hpm : processMount host o st m =
        .fatal [.refreshMount m.volume.name, .lookupVolume policy name,
                .fatalUnreachable] := by
      unfold processMount
      rw [hsplit]
      dsimp only
      rw [hl]
      rfl
    have hstep : processMounts host o st (m :: rest) =
        match processMount host o st m with
        | .next st1 tr => prependTrace tr (processMounts host o st1 rest)
        | .fatal tr => .fatalAbort tr
        | .failStep tr => .errAbort st tr := rfl
    rw [hstep, hpm]

/-- Witness for the master-error handling of the reconciler: the concrete
surviving mount is skipped under a VolumeNotFound master and reconciliation
aborts fatally under an unreachable master. -/
theorem reconcile_master_error_handling_witness :
    processMounts hostCE oracleNotFoundCE newDaemonState [mountCE] =
      prependTrace
        [.refreshMount volNameCE, .lookupVolume ("policy1") ("test"),
         .warnNotFound volNameCE]
        (processMounts hostCE oracleNotFoundCE newDaemonState []) ∧
    processMounts hostCE oracleUnreachableCE newDaemonState [mountCE] =
      .fatalAbort
        [.refreshMount volNameCE, .lookupVolume ("policy1") ("test"),
         .fatalUnreachable] := by
  constructor
  · exact (reconcile_master_error_handling hostCE oracleNotFoundCE newDaemonState
      mountCE [] ("policy1") ("test") (by decide)).1 (by decide)
  · exact (reconcile_master_error_handling hostCE oracleUnreachableCE newDaemonState
      mountCE [] ("policy1") ("test") (by decide)).2 (by decide)

/-- Prefixing a trace distributes over the trace of an outcome. -/
theorem umTrace_prependTrace (tr : List Event) (r : UMResult) :
    umTrace (prependTrace tr r) = tr ++ umTrace r := by
  cases r <;> rfl

/-- Every event a per-mount step emits is a reconciliation event. -/
theorem processMount_events (host : String) (o : MasterOracle)
    (st : AgentState) (m : Storage.Mount) :
    (stepTrace (processMount host o st m)).all isReconcileEvent = true := by
  unfold processMount
  dsimp only
  repeat' split
  all_goals simp [stepTrace, isReconcileEvent]

/-- Every event the per-driver mount loop emits is a reconciliation event. -/
theorem processMounts_events (host : String) (o : MasterOracle) :
    ∀ (ms : List Storage.Mount) (st : AgentState),
      (umTrace (processMounts host o st ms)).all isReconcileEvent = true := by
  intro ms
  induction ms with
  | nil => intro st; simp [processMounts, umTrace]
  | cons m rest ih =>
    intro st
    have hm := processMount_events host o st m
    unfold processMounts
    cases hp : processMount host o st m with
    | next st1 tr =>
      rw [hp] at hm
      simp only [stepTrace] at hm
      simp [umTrace_prependTrace, List.all_append, hm, ih st1]
    | fatal tr =>
      rw [hp] at hm
      simpa [stepTrace, umTrace] using hm
    | failStep tr =>
      rw [hp] at hm
      simpa [stepTrace, umTrace] using hm

/-- Every event updateMounts emits is a reconciliation event. -/
theorem updateMounts_events (host : String) (o : MasterOracle) :
    ∀ (ds : List DriverEntry) (st : AgentState),
      (umTrace (updateMounts host o st ds)).all isReconcileEvent = true := by
  intro ds
  induction ds with
  | nil => intro st; simp [updateMounts, umTrace]
  | cons d rest ih =>
    intro st
    have hp := processMounts_events host o
    unfold updateMounts
    cases hd : d.scan with
    | ctorErr msg => simp [umTrace, isReconcileEvent]
    | mountedErr msg => simp [umTrace, isReconcileEvent]
    | mounts ms =>
      dsimp only
      have hms := hp ms st
      cases hq : processMounts host o st ms with
      | ok st1 tr =>
        rw [hq] at hms
        simp only [umTrace] at hms
        simp [umTrace_prependTrace, List.all_append, hms, ih st1, isReconcileEvent]
      | errAbort st1 tr =>
        rw [hq] at hms
        simp only [umTrace] at hms
        simp [umTrace, List.all_append, hms, isReconcileEvent]
      | fatalAbort tr =>
        rw [hq] at hms
        simp only [umTrace] at hms
        simp [umTrace, List.all_append, hms, isReconcileEvent]

/-- A trace of reconciliation events contains no driver Mount invocation. -/
theorem no_driverMount_of_reconcile (tr : List Event)
    (h : tr.all isReconcileEvent = true) : hasDriverMount tr = false := by
  induction tr with
  | nil => rfl
  | cons e rest ih =>
    rw [List.all_cons] at h
    have he := (Bool.and_eq_true _ _).mp h
    have h1 : isDriverMountEvent e = false := by
      cases e <;> simp_all [isReconcileEvent, isDriverMountEvent]
    have h2 := ih he.2
    simp only [hasDriverMount, List.any_cons, h1, Bool.false_or]
    simpa [hasDriverMount] using h2

/-- C9: the startup reconciler never invokes the driver Mount operation: on
every input its trace is free of driver-mount events; instead, on a
surviving mount the master knows whose lease report is accepted, the step
re-publishes the lease and restarts the runtime poller, the stop channel
and the heartbeat, leaving the kernel mount untouched. -/
theorem reconciler_never_driver_mounts :
    (∀ (host : String) (o : MasterOracle) (st : AgentState)
       (ds : List DriverEntry),
      hasDriverMount (umTrace (updateMounts host o st ds)) = false) ∧
    (∀ (host : String) (o : MasterOracle) (st : AgentState)
       (m : Storage.Mount) (policy name : String) (u : Bool),
      splitSlash m.volume.name.data = [policy.data, name.data] →
      o.lookup policy name = .found u →
      o.reportMountOk { volume := m.volume.name, reason := reasonMount,
                        hostname := if u then lockUnlocked else host } = true →
      processMount host o st m =
        .next { st with
                  stopChans := st.stopChans ++ [m.volume.name],
                  heartbeats := st.heartbeats ++ [m.volume.name],
                  pollers := st.pollers ++ [m.volume.name] }
          [.refreshMount m.volume.name, .lookupVolume policy name,
           .reportMount { volume := m.volume.name, reason := reasonMount,
                          hostname := if u then lockUnlocked else host },
           .startPoller m.volume.name, .addStopChan m.volume.name,
           .startHeartbeat m.volume.name]) := by
  constructor
  · intro host o st ds
    exact no_driverMount_of_reconcile _ (updateMounts_events host o ds st)
  · intro host o st m policy name u hsplit hlk hrep
    unfold processMount
    rw [hsplit]
    dsimp only
    rw [hlk]
    dsimp only
    rw [hrep]
    rfl

/-- Witness for the reconciler frame property at the concrete scenario. -/
theorem reconciler_never_driver_mounts_witness :
    hasDriverMount
      (umTrace (updateMounts hostCE oracleCE newDaemonState driversCE)) = false ∧
    processMount hostCE oracleCE newDaemonState mountCE =
      .next reconciledStateCE
        [.refreshMount volNameCE, .lookupVolume ("policy1") ("test"),
         .reportMount { volume := volNameCE, reason := reasonMount,
                        hostname := hostCE },
         .startPoller volNameCE, .addStopChan volNameCE,
         .startHeartbeat volNameCE] := by
  constructor
  · exact reconciler_never_driver_mounts.1 hostCE oracleCE newDaemonState driversCE
  · exact reconciler_never_driver_mounts.2 hostCE oracleCE newDaemonState mountCE
      ("policy1") ("test") false (by decide) (by decide) (by decide)

/-- Monotonicity of List.all along a pointwise implication. -/
theorem all_imp (p q : Event → Bool) (h : ∀ e, p e = true → q e = true) :
    ∀ tr : List Event, tr.all p = true → tr.all q = true := by
  intro tr htr
  rw [List.all_eq_true] at htr ⊢
  exact fun e he => h e (htr e he)

/-- An element failing the predicate is absent from a list where all hold. -/
theorem not_mem_of_all_false (p : Event → Bool) (tr : List Event) (e : Event)
    (h : tr.all p = true) (he : p e = false) : e ∉ tr := by
  intro hm
  rw [List.all_eq_true] at h
  have hpe := h e hm
  rw [he] at hpe
  exact Bool.noConfusion hpe

/-- takeWhile walks through a prefix on which the predicate holds. -/
theorem takeWhile_append_of_all (p : Event → Bool) (l1 l2 : List Event)
    (h : l1.all p = true) : (l1 ++ l2).takeWhile p = l1 ++ l2.takeWhile p := by
  induction l1 with
  | nil => simp
  | cons e rest ih =>
    rw [List.all_cons] at h
    have he := (Bool.and_eq_true _ _).mp h
    simp [List.takeWhile_cons, he.1, ih he.2]

/-- eventsBefore passes over a prefix free of the stop event. -/
theorem eventsBefore_append (e : Event) (l1 l2 : List Event)
    (h : l1.all (fun y => y != e) = true) :
    eventsBefore e (l1 ++ l2) = l1 ++ eventsBefore e l2 := by
  unfold eventsBefore
  exact takeWhile_append_of_all _ l1 l2 h

/-- eventsBefore passes over a head different from the stop event. -/
theorem eventsBefore_cons (e x : Event) (l : List Event)
    (h : (x != e) = true) :
    eventsBefore e (x :: l) = x :: eventsBefore e l := by
  unfold eventsBefore
  simp [List.takeWhile_cons, h]

/-- Every event the startup loop emits is a fetch, a missing-configuration
log or a one-second sleep. -/
theorem daemonLoop_events (fs : List (Option Global)) :
    ((daemonLoop fs).1).all isLoopEvent = true := by
  induction fs with
  | nil => rfl
  | cons f rest ih =>
    cases f with
    | none => simpa [daemonLoop, isLoopEvent] using ih
    | some g => rfl

/-- On an all-failing fetch sequence the loop obtains nothing, and it logs
the missing-configuration message and sleeps once per failed fetch. -/
theorem daemonLoop_replicate (k : Nat) :
    (daemonLoop (List.replicate k none)).2 = none ∧
    ((daemonLoop (List.replicate k none)).1).count Event.logGlobalMissing = k ∧
    ((daemonLoop (List.replicate k none)).1).count Event.sleepSecond = k := by
  induction k with
  | zero => exact ⟨rfl, rfl, rfl⟩
  | succ k ih =>
    rw [List.replicate_succ]
    refine ⟨?_, ?_, ?_⟩
    · simpa [daemonLoop] using ih.1
    · simp [daemonLoop, List.count_cons, ih.2.1]
    · simp [daemonLoop, List.count_cons, ih.2.2]

/-- The daemon run when the startup loop never obtains a configuration. -/
theorem Daemon_of_loop_none (host : String) (inp : DaemonInput)
    (st : AgentState) (ltr : List Event)
    (hdl : daemonLoop inp.fetches = (ltr, none)) :
    Daemon host inp st = ltr := by
  unfold Daemon
  rw [hdl]

/-- The daemon run once the startup loop obtains a configuration. -/
theorem Daemon_of_loop_some (host : String) (inp : DaemonInput)
    (st : AgentState) (ltr : List Event) (g : Global)
    (hdl : daemonLoop inp.fetches = (ltr, some g)) :
    Daemon host inp st = ltr ++ daemonTail host inp st := by
  unfold Daemon
  rw [hdl]

/-- The daemon tail when reconciliation returns normally. -/
theorem daemonTail_ok (host : String) (inp : DaemonInput) (st : AgentState)
    (st1 : AgentState) (tr : List Event)
    (hum : updateMounts host inp.master st inp.drivers = .ok st1 tr) :
    daemonTail host inp st =
      Event.globalObtained :: Event.runReconcile ::
        (tr ++ afterReconcile inp.removeSock inp.mkdirOk inp.listenOk
          inp.serveErr) := by
  unfold daemonTail
  rw [hum]
  rfl

/-- The daemon tail when reconciliation returns an error. -/
theorem daemonTail_err (host : String) (inp : DaemonInput) (st : AgentState)
    (st1 : AgentState) (tr : List Event)
    (hum : updateMounts host inp.master st inp.drivers = .errAbort st1 tr) :
    daemonTail host inp st =
      Event.globalObtained :: Event.runReconcile ::
        (tr ++ [Event.returnError]) := by
  unfold daemonTail
  rw [hum]
  rfl

/-- The daemon tail when reconciliation aborts the process. -/
theorem daemonTail_fatal (host : String) (inp : DaemonInput)
    (st : AgentState) (tr : List Event)
    (hum : updateMounts host inp.master st inp.drivers = .fatalAbort tr) :
    daemonTail host inp st =
      Event.globalObtained :: Event.runReconcile :: tr := by
  unfold daemonTail
  rw [hum]
  rfl

/-- The four possible tails after a successful reconciliation: an error on
the stale-socket removal, the directory creation or the listen ends the
run before binding; otherwise the daemon binds and serves, and the
shutdown cleanup runs only when Serve returns without error. -/
theorem afterReconcile_shape (rm : RemoveResult) (mo lo : Bool)
    (se : Option String) :
    afterReconcile rm mo lo se =
      [.spawnDebugHandler, .spawnGlobalWatcher, .removeSocketFile,
       .returnError] ∨
    afterReconcile rm mo lo se =
      [.spawnDebugHandler, .spawnGlobalWatcher, .removeSocketFile,
       .mkdirPlugins 0o700, .returnError] ∨
    (se = none ∧ afterReconcile rm mo lo se =
      [.spawnDebugHandler, .spawnGlobalWatcher, .removeSocketFile,
       .mkdirPlugins 0o700, .bindSocket, .serveRPC, .closeListener,
       .removeSocketOnShutdown]) ∨
    (∃ msg, se = some msg ∧ afterReconcile rm mo lo se =
      [.spawnDebugHandler, .spawnGlobalWatcher, .removeSocketFile,
       .mkdirPlugins 0o700, .bindSocket, .serveRPC, .fatalServe]) := by
  cases rm <;> cases mo <;> cases lo <;> cases se <;>
    simp [afterReconcile]

/-- Any daemon run is the loop trace alone, or the loop trace followed by
the configuration and reconcile marks, the reconciliation trace, and one of
the post-reconciliation tails. -/
theorem Daemon_shape (host : String) (inp : DaemonInput) (st : AgentState) :
    (∃ ltr, Daemon host inp st = ltr ∧ ltr.all isLoopEvent = true) ∨
    (∃ ltr umtr, ltr.all isLoopEvent = true ∧
      umtr.all isReconcileEvent = true ∧
      (Daemon host inp st =
          ltr ++ Event.globalObtained :: Event.runReconcile ::
            (umtr ++ [Event.returnError]) ∨
       Daemon host inp st =
          ltr ++ Event.globalObtained :: Event.runReconcile :: umtr ∨
       Daemon host inp st =
          ltr ++ Event.globalObtained :: Event.runReconcile ::
            (umtr ++ afterReconcile inp.removeSock inp.mkdirOk inp.listenOk
              inp.serveErr))) := by
  rcases hdl : daemonLoop inp.fetches with ⟨ltr, g?⟩
  have hlall : ltr.all isLoopEvent = true := by
    have h0 := daemonLoop_events inp.fetches
    rw [hdl] at h0
    exact h0
  cases g? with
  | none => exact Or.inl ⟨ltr, Daemon_of_loop_none host inp st ltr hdl, hlall⟩
  | some g =>
    have hD := Daemon_of_loop_some host inp st ltr g hdl
    cases hum : updateMounts host inp.master st inp.drivers with
    | ok st1 umtr =>
      have humall : umtr.all isReconcileEvent = true := by
        have h0 := updateMounts_events host inp.master inp.drivers st
        rw [hum] at h0
        exact h0
      exact Or.inr ⟨ltr, umtr, hlall, humall, Or.inr (Or.inr (by
        rw [hD, daemonTail_ok host inp st st1 umtr hum]))⟩
    | errAbort st1 umtr =>
      have humall : umtr.all isReconcileEvent = true := by
        have h0 := updateMounts_events host inp.master inp.drivers st
        rw [hum] at h0
        exact h0
      exact Or.inr ⟨ltr, umtr, hlall, humall, Or.inl (by
        rw [hD, daemonTail_err host inp st st1 umtr hum])⟩
    | fatalAbort umtr =>
      have humall : umtr.all isReconcileEvent = true := by
        have h0 := updateMounts_events host inp.master inp.drivers st
        rw [hum] at h0
        exact h0
      exact Or.inr ⟨ltr, umtr, hlall, humall, Or.inr (Or.inl (by
        rw [hD, daemonTail_fatal host inp st umtr hum]))⟩

/-- Whenever the daemon trace contains the socket bind, the startup loop
succeeded, reconciliation returned normally, and the events before the
bind are exactly the loop trace, the configuration and reconcile marks,
the reconciliation trace, and the stale-socket removal and directory
creation steps. -/
theorem daemon_before_bind (host : String) (inp : DaemonInput)
    (st : AgentState) (hbind : Event.bindSocket ∈ Daemon host inp st) :
    ∃ (ltr : List Event) (g : Global) (st1 : AgentState) (umtr : List Event),
      daemonLoop inp.fetches = (ltr, some g) ∧
      updateMounts host inp.master st inp.drivers = .ok st1 umtr ∧
      eventsBefore Event.bindSocket (Daemon host inp st) =
        ltr ++ Event.globalObtained :: Event.runReconcile :: umtr ++
          [Event.spawnDebugHandler, Event.spawnGlobalWatcher,
           Event.removeSocketFile, Event.mkdirPlugins 0o700] := by
  rcases hdl : daemonLoop inp.fetches with ⟨ltr, g?⟩
  have hlall : ltr.all isLoopEvent = true := by
    have h0 := daemonLoop_events inp.fetches
    rw [hdl] at h0
    exact h0
  have hlnb : ltr.all (fun y => y != Event.bindSocket) = true :=
    all_imp _ _ (by intro e h; cases e <;> simp_all [isLoopEvent]) ltr hlall
  cases g? with
  | none =>
    rw [Daemon_of_loop_none host inp st ltr hdl] at hbind
    exact absurd hbind (not_mem_of_all_false _ _ _ hlall (by decide))
  | some g =>
    have hD := Daemon_of_loop_some host inp st ltr g hdl
    cases hum : updateMounts host inp.master st inp.drivers with
    | errAbort st1 umtr =>
      have humall : umtr.all isReconcileEvent = true := by
        have h0 := updateMounts_events host inp.master inp.drivers st
        rw [hum] at h0
        exact h0
      have h1 : Event.bindSocket ∉ ltr :=
        not_mem_of_all_false _ _ _ hlall (by decide)
      have h2 : Event.bindSocket ∉ umtr :=
        not_mem_of_all_false _ _ _ humall (by decide)
      rw [hD, daemonTail_err host inp st st1 umtr hum] at hbind
      simp [h1, h2] at hbind
    | fatalAbort umtr =>
      have humall : umtr.all isReconcileEvent = true := by
        have h0 := updateMounts_events host inp.master inp.drivers st
        rw [hum] at h0
        exact h0
      have h1 : Event.bindSocket ∉ ltr :=
        not_mem_of_all_false _ _ _ hlall (by decide)
      have h2 : Event.bindSocket ∉ umtr :=
        not_mem_of_all_false _ _ _ humall (by decide)
      rw [hD, daemonTail_fatal host inp st umtr hum] at hbind
      simp [h1, h2] at hbind
    | ok st1 umtr =>
      have humall : umtr.all isReconcileEvent = true := by
        have h0 := updateMounts_events host inp.master inp.drivers st
        rw [hum] at h0
        exact h0
      have humnb : umtr.all (fun y => y != Event.bindSocket) = true :=
        all_imp _ _ (by intro e h; cases e <;> simp_all [isReconcileEvent])
          umtr humall
      have h1 : Event.bindSocket ∉ ltr :=
        not_mem_of_all_false _ _ _ hlall (by decide)
      have h2 : Event.bindSocket ∉ umtr :=
        not_mem_of_all_false _ _ _ humall (by decide)
      rcases afterReconcile_shape inp.removeSock inp.mkdirOk inp.listenOk
          inp.serveErr with hA | hA | ⟨hse, hA⟩ | ⟨msg, hse, hA⟩
      · rw [hD, daemonTail_ok host inp st st1 umtr hum, hA] at hbind
        simp [h1, h2] at hbind
      · rw [hD, daemonTail_ok host inp st st1 umtr hum, hA] at hbind
        simp [h1, h2] at hbind
      · refine ⟨ltr, g, st1, umtr, rfl, rfl, ?_⟩
        rw [hD, daemonTail_ok host inp st st1 umtr hum, hA]
        rw [eventsBefore_append _ _ _ hlnb]
        rw [eventsBefore_cons _ _ _ (by decide)]
        rw [eventsBefore_cons _ _ _ (by decide)]
        rw [eventsBefore_append _ _ _ humnb]
        rw [show eventsBefore Event.bindSocket
            [.spawnDebugHandler, .spawnGlobalWatcher, .removeSocketFile,
             .mkdirPlugins 0o700, .bindSocket, .serveRPC, .closeListener,
             .removeSocketOnShutdown] =
          [Event.spawnDebugHandler, Event.spawnGlobalWatcher,
           Event.removeSocketFile, Event.mkdirPlugins 0o700] from by decide]
        simp
      · refine ⟨ltr, g, st1, umtr, rfl, rfl, ?_⟩
        rw [hD, daemonTail_ok host inp st st1 umtr hum, hA]
        rw [eventsBefore_append _ _ _ hlnb]
        rw [eventsBefore_cons _ _ _ (by decide)]
        rw [eventsBefore_cons _ _ _ (by decide)]
        rw [eventsBefore_append _ _ _ humnb]
        rw [show eventsBefore Event.bindSocket
            [.spawnDebugHandler, .spawnGlobalWatcher, .removeSocketFile,
             .mkdirPlugins 0o700, .bindSocket, .serveRPC, .fatalServe] =
          [Event.spawnDebugHandler, Event.spawnGlobalWatcher,
           Event.removeSocketFile, Event.mkdirPlugins 0o700] from by decide]
        simp

/-- C4: the daemon never binds the plugin socket before the master's global
configuration is obtained and reconciliation has run: before any bind event
both marks occur; and as long as every fetch fails the daemon only loops,
logging that the global configuration is missing and sleeping one second
per failed fetch, and never binds. -/
theorem daemon_binds_after_global_and_reconcile :
    ∀ (host : String) (inp : DaemonInput) (st : AgentState),
      (Event.bindSocket ∈ Daemon host inp st →
        Event.globalObtained ∈
          eventsBefore Event.bindSocket (Daemon host inp st) ∧
        Event.runReconcile ∈
          eventsBefore Event.bindSocket (Daemon host inp st)) ∧
      (∀ k : Nat, inp.fetches = List.replicate k none →
        Event.bindSocket ∉ Daemon host inp st ∧
        (Daemon host inp st).count Event.logGlobalMissing = k ∧
        (Daemon host inp st).count Event.sleepSecond = k) := by
  intro host inp st
  constructor
  · intro hbind
    obtain ⟨ltr, g, st1, umtr, hdl, hum, hbef⟩ :=
      daemon_before_bind host inp st hbind
    rw [hbef]
    constructor <;> simp
  · intro k hk
    obtain ⟨hnone, hlog, hsleep⟩ := daemonLoop_replicate k
    have hD : Daemon host inp st = (daemonLoop (List.replicate k none)).1 := by
      rcases hdl : daemonLoop (List.replicate k none) with ⟨ltr, g?⟩
      rw [hdl] at hnone
      simp only at hnone
      subst hnone
      have hfull : daemonLoop inp.fetches = (ltr, none) := by rw [hk, hdl]
      exact Daemon_of_loop_none host inp st ltr hfull
    refine ⟨?_, ?_, ?_⟩
    · rw [hD]
      exact not_mem_of_all_false _ _ _
        (daemonLoop_events (List.replicate k none)) (by decide)
    · rw [hD]
      exact hlog
    · rw [hD]
      exact hsleep

/-- A daemon input whose first fetch fails, whose second succeeds, and for
which reconciliation and every socket step succeed (Serve returns nil). -/
def inpBindCE : DaemonInput :=
  { fetches := [none, some globalCE], drivers := driversCE,
    master := oracleCE, removeSock := .removed, mkdirOk := true,
    listenOk := true, serveErr := none }

/-- The same run with every fetch failing. -/
def inpLoopCE : DaemonInput :=
  { inpBindCE with fetches := List.replicate 2 none }

/-- The same run with Serve returning an error. -/
def inpServeErrCE : DaemonInput :=
  { inpBindCE with serveErr := some ("accept failed") }

/-- Witness for the daemon startup-ordering theorem at concrete inputs. -/
theorem daemon_binds_after_global_and_reconcile_witness :
    (Event.bindSocket ∈ Daemon hostCE inpBindCE newDaemonState ∧
     Event.globalObtained ∈
       eventsBefore Event.bindSocket (Daemon hostCE inpBindCE newDaemonState) ∧
     Event.runReconcile ∈
       eventsBefore Event.bindSocket (Daemon hostCE inpBindCE newDaemonState)) ∧
    (Event.bindSocket ∉ Daemon hostCE inpLoopCE newDaemonState ∧
     (Daemon hostCE inpLoopCE newDaemonState).count Event.logGlobalMissing = 2) := by
  constructor
  · have h := (daemon_binds_after_global_and_reconcile hostCE inpBindCE
      newDaemonState).1 (by decide)
    exact ⟨by decide, h.1, h.2⟩
  · have h := (daemon_binds_after_global_and_reconcile hostCE inpLoopCE
      newDaemonState).2 2 (by decide)
    exact ⟨h.1, h.2.1⟩

/-- C8 counterexample: when Serve returns an error (as it does whenever the
listener stops serving), the daemon run reaches Serve and then exits
fatally through log.Fatalf: the listener close and the socket-file removal
after Serve are never executed, so the socket file survives the shutdown. -/
theorem serve_error_skips_shutdown_cleanup :
    Event.serveRPC ∈ Daemon hostCE inpServeErrCE newDaemonState ∧
    Event.fatalServe ∈ Daemon hostCE inpServeErrCE newDaemonState ∧
    Event.closeListener ∉ Daemon hostCE inpServeErrCE newDaemonState ∧
    Event.removeSocketOnShutdown ∉ Daemon hostCE inpServeErrCE newDaemonState := by
  refine ⟨?_, ?_, ?_, ?_⟩ <;> decide

/-- C8 amended: on startup the daemon removes any stale socket file and
creates the plugin directory with mode 0700 before binding the listener;
when Serve returns without error it closes the listener and removes the
socket file, but when Serve returns an error the process exits fatally
without either cleanup step. -/
theorem socket_lifecycle :
    ∀ (host : String) (inp : DaemonInput) (st : AgentState),
      (Event.bindSocket ∈ Daemon host inp st →
        Event.removeSocketFile ∈
          eventsBefore Event.bindSocket (Daemon host inp st) ∧
        Event.mkdirPlugins 0o700 ∈
          eventsBefore Event.bindSocket (Daemon host inp st)) ∧
      (inp.serveErr = none → Event.serveRPC ∈ Daemon host inp st →
        Event.closeListener ∈ Daemon host inp st ∧
        Event.removeSocketOnShutdown ∈ Daemon host inp st) ∧
      (∀ msg, inp.serveErr = some msg →
        Event.removeSocketOnShutdown ∉ Daemon host inp st ∧
        Event.closeListener ∉ Daemon host inp st) := by
  intro host inp st
  refine ⟨?_, ?_, ?_⟩
  · intro hbind
    obtain ⟨ltr, g, st1, umtr, hdl, hum, hbef⟩ :=
      daemon_before_bind host inp st hbind
    rw [hbef]
    constructor <;> simp
  · intro hse hserve
    rcases Daemon_shape host inp st with ⟨ltr, hD, hlall⟩ |
      ⟨ltr, umtr, hlall, humall, hD3⟩
    · rw [hD] at hserve
      exact absurd hserve (not_mem_of_all_false _ _ _ hlall (by decide))
    · have h1 : Event.serveRPC ∉ ltr :=
        not_mem_of_all_false _ _ _ hlall (by decide)
      have h2 : Event.serveRPC ∉ umtr :=
        not_mem_of_all_false _ _ _ humall (by decide)
      rcases hD3 with hD | hD | hD
      · rw [hD] at hserve
        simp [h1, h2] at hserve
      · rw [hD] at hserve
        simp [h1, h2] at hserve
      · rcases afterReconcile_shape inp.removeSock inp.mkdirOk inp.listenOk
            inp.serveErr with hA | hA | ⟨hAse, hA⟩ | ⟨msg, hAse, hA⟩
        · rw [hD, hA] at hserve
          simp [h1, h2] at hserve
        · rw [hD, hA] at hserve
          simp [h1, h2] at hserve
        · rw [hD, hA]
          constructor <;> simp
        · rw [hse] at hAse
          exact Option.noConfusion hAse
  · intro msg hse
    rcases Daemon_shape host inp st with ⟨ltr, hD, hlall⟩ |
      ⟨ltr, umtr, hlall, humall, hD3⟩
    · rw [hD]
      exact ⟨not_mem_of_all_false _ _ _ hlall (by decide),
             not_mem_of_all_false _ _ _ hlall (by decide)⟩
    · have h1r : Event.removeSocketOnShutdown ∉ ltr :=
        not_mem_of_all_false _ _ _ hlall (by decide)
      have h1c : Event.closeListener ∉ ltr :=
        not_mem_of_all_false _ _ _ hlall (by decide)
      have h2r : Event.removeSocketOnShutdown ∉ umtr :=
        not_mem_of_all_false _ _ _ humall (by decide)
      have h2c : Event.closeListener ∉ umtr :=
        not_mem_of_all_false _ _ _ humall (by decide)
      rcases hD3 with hD | hD | hD
      · rw [hD]
        constructor <;> simp [h1r, h1c, h2r, h2c]
      · rw [hD]
        constructor <;> simp [h1r, h1c, h2r, h2c]
      · rcases afterReconcile_shape inp.removeSock inp.mkdirOk inp.listenOk
            inp.serveErr with hA | hA | ⟨hAse, hA⟩ | ⟨m2, hAse, hA⟩
        · rw [hD, hA]
          constructor <;> simp [h1r, h1c, h2r, h2c]
        · rw [hD, hA]
          constructor <;> simp [h1r, h1c, h2r, h2c]
        · rw [hse] at hAse
          exact Option.noConfusion hAse
        · rw [hD, hA]
          constructor <;> simp [h1r, h1c, h2r, h2c]

/-- Witness for the socket-lifecycle theorem at concrete inputs. -/
theorem socket_lifecycle_witness :
    (Event.removeSocketFile ∈
       eventsBefore Event.bindSocket (Daemon hostCE inpBindCE newDaemonState) ∧
     Event.mkdirPlugins 0o700 ∈
       eventsBefore Event.bindSocket (Daemon hostCE inpBindCE newDaemonState)) ∧
    (Event.closeListener ∈ Daemon hostCE inpBindCE newDaemonState ∧
     Event.removeSocketOnShutdown ∈ Daemon hostCE inpBindCE newDaemonState) ∧
    (Event.removeSocketOnShutdown ∉ Daemon hostCE inpServeErrCE newDaemonState ∧
     Event.closeListener ∉ Daemon hostCE inpServeErrCE newDaemonState) := by
  refine ⟨?_, ?_, ?_⟩
  · exact (socket_lifecycle hostCE inpBindCE newDaemonState).1 (by decide)
  · exact (socket_lifecycle hostCE inpBindCE newDaemonState).2.1 rfl (by decide)
  · exact (socket_lifecycle hostCE inpServeErrCE newDaemonState).2.2
      ("accept failed") rfl

/-- Witness for the debug-off routing theorem at a concrete unknown verb. -/
theorem debug_off_never_routes_action_witness :
    resolveRoute false ("/VolumeDriver.Destroy") ≠ Handler.action :=
  debug_off_never_routes_action ("/VolumeDriver.Destroy")

/-- Witness for the no-destroy theorem at the Remove verb with debug on. -/
theorem remove_rpc_never_destroys_witness :
    DriverOp.destroyOp ∉
      handlerDriverOps (resolveRoute true ("/VolumeDriver.Remove")) :=
  remove_rpc_never_destroys.2.2.2 true ("/VolumeDriver.Remove")

/-- Witness for the global-configuration preservation theorem at concrete
fetch outcomes. -/
theorem getGlobal_failure_preserves_config_witness :
    getGlobal (some globalCE) (GetOutcome.httpErr ("refused")) =
      some globalCE ∧
    watchGlobal (some globalCE) [GetOutcome.jsonErr ("bad json")] ≠ none :=
  ⟨(getGlobal_failure_preserves_config (some globalCE) ("refused") globalCE
      []).1,
   (getGlobal_failure_preserves_config (some globalCE) ("x") globalCE
      [GetOutcome.jsonErr ("bad json")]).2.2.2.2⟩

end Volplugin
